import Mathlib

/-!
Verification of the CE13 Lab 8 Morse-code decoder (`Tree.c`): the recursive
binary-tree builder `TreeCreate`, the decoder `MorseDecode` with its cursor
into the Morse tree, the initializer `MorseInit`, and the timing state
machine `MorseCheckEvents`.

The C code is embedded shallowly: heap nodes become an inductive type whose
nullable child pointers are `Option Node`; `malloc` is modelled by an
allocation oracle `alloc : Nat → Bool` consulted at a running call counter,
so that failure of any particular allocation can be expressed; the serialized
input array, accessed by pointer arithmetic in C, becomes a function
`Nat → Char` (pointer offset `data + k` becomes index shifting).
-/

/-- Heap node of `Tree.c`: a character payload and two nullable child
pointers (`NULL` is `none`). -/
inductive Node where
  | mk (data : Char) (leftChild rightChild : Option Node)
deriving Repr

def Node.data : Node → Char
  | .mk d _ _ => d

def Node.leftChild : Node → Option Node
  | .mk _ l _ => l

def Node.rightChild : Node → Option Node
  | .mk _ _ r => r

/-- Embedding of `TreeCreate(level, data)` (Tree.c lines 37-56) with an
explicit allocator: `alloc k` tells whether the `k`-th `malloc` of the whole
call succeeds, and the `Nat` argument/result threads the running count of
`malloc` calls. Mirrors the C exactly: the node's own `malloc` failing
returns `NULL`; otherwise `data[0]` is stored, level 0 makes a leaf, and
otherwise the children are built from `data + 1` and
`data + (1 << (level - 1))` with NO check of the recursive results. -/
def TreeCreate : Nat → (Nat → Char) → (Nat → Bool) → Nat → Option Node × Nat
  | level, data, alloc, k =>
    if alloc k then
      match level with
      | 0 => (some (.mk (data 0) none none), k + 1)
      | l + 1 =>
        let L := TreeCreate l (fun i => data (i + 1)) alloc (k + 1)
        let R := TreeCreate l (fun i => data (i + 2 ^ l)) alloc L.2
        (some (.mk (data 0) L.1 R.1), R.2)
    else (none, k + 1)

/-- The tree `TreeCreate level data` builds when every allocation succeeds
(the pure success path of the recursion). -/
def TreeCreateOk : Nat → (Nat → Char) → Node
  | 0, data => .mk (data 0) none none
  | l + 1, data =>
    .mk (data 0) (some (TreeCreateOk l (fun i => data (i + 1))))
      (some (TreeCreateOk l (fun i => data (i + 2 ^ l))))

/-- Number of `malloc` calls (= nodes) `TreeCreate level _` makes when all
allocations succeed: a perfect tree of `level+1` levels. -/
def numNodes : Nat → Nat
  | 0 => 1
  | l + 1 => 1 + numNodes l + numNodes l

/-- Top-down, left-to-right serialization of a built tree, the order the
header comment of `TreeCreate` documents with `[A B D E C F G]`. -/
def serialize : Node → List Char
  | .mk d l r =>
    d :: ((match l with | none => [] | some n => serialize n) ++
      (match r with | none => [] | some n => serialize n))

/-- Modelled from the spec: `STANDARD_ERROR` comes from the external
`BOARD.h` (not under `src/`); the canonical definition is `0`, so as a
`char` return value it coincides with the `'\0'` sentinel payload. -/
def STANDARD_ERROR : Char := '\x00'

/-- Modelled from the spec: `SUCCESS` comes from the external `BOARD.h`
(not under `src/`); the canonical definition is `1`. -/
def SUCCESS : Char := '\x01'

/-- Modelled from the spec: the `MorseChar` enum lives in `Morse.h`, which
is not under `src/`. The decoder's input alphabet is Dot, Dash,
EndOfCharacter and Reset; `other n` stands for any value outside the
recognized set (the C enum is an integer type, so out-of-range values can
be passed). -/
inductive MorseChar where
  | dot
  | dash
  | endOfChar
  | decodeReset
  | other (n : Nat)
deriving Repr, DecidableEq

/-- Module state of `Tree.c`'s Morse part: the globals `chartree` (the tree
root, set once by `MorseInit`) and `temp` (the traversal cursor). -/
structure DecState where
  chartree : Node
  temp : Node

/-- Serialized 63-character Morse table from `MorseInit` (Tree.c lines
115-118), byte for byte. -/
def morseTable : List Char :=
  ['\x00', 'E', 'I', 'S', 'H', '5', '4', 'V', '\x00', '3', 'U', 'F', '\x00',
    '\x00', '\x00', '\x00', '2',
    'A', 'R', 'L', '\x00', '\x00', '\x00', '\x00', '\x00', 'W', 'P', '\x00',
    '\x00', 'J', '\x00', '1',
    'T', 'N', 'D', 'B', '6', '\x00', 'X', '\x00', '\x00', 'K', 'C', '\x00',
    '\x00', 'Y', '\x00', '\x00',
    'M', 'G', 'Z', '7', '\x00', 'Q', '\x00', '\x00', 'O', '\x00', '8', '\x00',
    '\x00', '9', '0']

/-- The table as the access function `TreeCreate` sees: `TreeCreate 6`
reads index 63, one past the end of the C array `tree[63]` (a read the
source's own §9 note flags); that out-of-bounds byte is modelled as
`'\x00'`. -/
def morseData : Nat → Char := fun i => morseTable.getD i '\x00'

/-- Embedding of `MorseInit` (Tree.c lines 112-126): build the Morse tree
with `TreeCreate(6, tree)`; on `NULL` report failure (`STANDARD_ERROR`
becomes `none`), otherwise set both globals, the cursor starting at the
root. `ButtonsInit` is external I/O with no decoder-visible state and is
not modelled. -/
def MorseInit (alloc : Nat → Bool) : Option DecState :=
  match (TreeCreate 6 morseData alloc 0).1 with
  | none => none
  | some t => some ⟨t, t⟩

/-- The Morse tree `MorseInit` builds when every allocation succeeds. -/
def chartreeVal : Node := TreeCreateOk 6 morseData

/-- Embedding of `MorseDecode` (Tree.c lines 145-171): the returned `char`
(`SUCCESS`, `STANDARD_ERROR`, or the decoded character) paired with the
updated module state. Mirrors the C branch for branch; note the final
`else` branch returns `STANDARD_ERROR` without touching `temp`. -/
def MorseDecode (st : DecState) (inp : MorseChar) : Char × DecState :=
  match inp with
  | .dot =>
    match st.temp.leftChild with
    | none => (STANDARD_ERROR, st)
    | some l => (SUCCESS, { st with temp := l })
  | .dash =>
    match st.temp.rightChild with
    | none => (STANDARD_ERROR, st)
    | some r => (SUCCESS, { st with temp := r })
  | .endOfChar => (st.temp.data, { st with temp := st.chartree })
  | .decodeReset => (SUCCESS, { st with temp := st.chartree })
  | .other _ => (STANDARD_ERROR, st)

/-- Feeding a whole list of symbols to `MorseDecode`, keeping the final
module state. -/
def feedAll (st : DecState) (l : List MorseChar) : DecState :=
  l.foldl (fun s i => (MorseDecode s i).2) st

/-- Reachability of a node from a root by child pointers: `Subnode t n`
says `n` is a node of the tree rooted at `t`. -/
inductive Subnode : Node → Node → Prop where
  | refl (n : Node) : Subnode n n
  | left {t p c : Node} : Subnode t p → p.leftChild = some c → Subnode t c
  | right {t p c : Node} : Subnode t p → p.rightChild = some c → Subnode t c

/-- States of the event-detection state machine (`Mstate`, Tree.c lines
96-101). -/
inductive MState where
  | waiting
  | dot
  | dash
  | interLetter
deriving Repr, DecidableEq

/-- Modelled from the spec: the per-tick button sample. `ButtonsCheckEvents`
and the `BUTTON_EVENT_*` constants live in the external Buttons library;
`MorseCheckEvents` only compares its result against `BUTTON_EVENT_4DOWN`
and `BUTTON_EVENT_4UP`, so the sample is one of no-event / pressed /
released. -/
inductive ButtonEvent where
  | noEvent
  | b4down
  | b4up
deriving Repr, DecidableEq

/-- Output alphabet of `MorseCheckEvents` (the `MorseEvent` enum of
`Morse.h`, named by the spec's glossary: `interLetter` is the
end-of-character event, `interWord` the word gap). -/
inductive MorseEvent where
  | none
  | dot
  | dash
  | interLetter
  | interWord
deriving Repr, DecidableEq

/-- Modelled from the spec: `MORSE_EVENT_LENGTH_DOWN_DASH` is declared in
`Morse.h`, which is not under `src/`; the spec fixes the dash threshold at
0.5 s held at 100 Hz, i.e. 50 ticks. -/
def MORSE_EVENT_LENGTH_DOWN_DASH : Nat := 50

/-- Modelled from the spec: `MORSE_EVENT_LENGTH_UP_INTER_LETTER` is
declared in `Morse.h`, which is not under `src/`; the spec fixes the
letter-gap threshold at 1 s released at 100 Hz, i.e. 100 ticks. -/
def MORSE_EVENT_LENGTH_UP_INTER_LETTER : Nat := 100

/-- Embedding of `MorseCheckEvents` (Tree.c lines 195-246) as one tick of
the state machine: from the stored state and `increment` counter and the
tick's button sample, the new state, new counter and emitted event.
Mirrors the C statement for statement: `increment++` first, then the
switch; the `INTER_LETTER` case keeps the inner
`increment >= MORSE_EVENT_LENGTH_UP_INTER_LETTER` test nested under the
press check exactly as written (it is unreachable because the same test
already returned above). `printf` calls are output-only and not modelled. -/
def MorseCheckEvents (s : MState) (increment : Nat) (first : ButtonEvent) :
    MState × Nat × MorseEvent :=
  let increment := increment + 1
  match s with
  | .waiting =>
    if first = .b4down then (.dot, 0, .none) else (.waiting, 0, .none)
  | .dot =>
    if first = .b4up then (.interLetter, 0, .dot)
    else if MORSE_EVENT_LENGTH_DOWN_DASH < increment then
      (.dash, increment, .none)
    else (.dot, increment, .none)
  | .dash =>
    if first = .b4up then (.interLetter, 0, .dash)
    else (.dash, increment, .none)
  | .interLetter =>
    if MORSE_EVENT_LENGTH_UP_INTER_LETTER ≤ increment then
      (.waiting, increment, .interWord)
    else if first = .b4down then
      if MORSE_EVENT_LENGTH_UP_INTER_LETTER ≤ increment then
        (.dot, 0, .interLetter)
      else (.dot, 0, .none)
    else (.interLetter, increment, .none)

/-- Runs of the detector over a list of per-tick button samples, collecting
the per-tick events. -/
def runDetector : MState → Nat → List ButtonEvent →
    (MState × Nat) × List MorseEvent
  | s, inc, [] => ((s, inc), [])
  | s, inc, b :: bs =>
    let r := MorseCheckEvents s inc b
    let rest := runDetector r.1 r.2.1 bs
    (rest.1, r.2.2 :: rest.2)

/-- Concrete serialized input for the serialization round-trip check:
the C array `['a','b','c']` (reads past index 2 yield `'z'`, which
`TreeCreate 1` never reaches). -/
def c1data : Nat → Char := fun i => ['a', 'b', 'c'].getD i 'z'

/-- Concrete serialized input for the allocation-failure check. -/
def c2data : Nat → Char := fun i => ['x', 'y', 'z'].getD i 'w'

/-- Decoder state after a successful `MorseInit` followed by one
`MORSE_CHAR_DOT`: the cursor sits on the root's left child, the node
holding `'E'`. -/
def c5state : DecState := (MorseDecode ⟨chartreeVal, chartreeVal⟩ .dot).2

/-- Allocation counts of `TreeCreate` under an always-succeeding allocator:
`TreeCreate level` performs `numNodes level` `malloc` calls and returns the
pure success-path tree. -/
theorem TreeCreate_allocTrue (level : Nat) :
    ∀ (data : Nat → Char) (k : Nat),
      TreeCreate level data (fun _ => true) k =
        (some (TreeCreateOk level data), k + numNodes level) := by
  induction level with
  | zero => intro data k; simp [TreeCreate, TreeCreateOk, numNodes]
  | succ l ih =>
    intro data k
    simp only [TreeCreate, TreeCreateOk, numNodes, if_true]
    rw [ih, ih]
    refine Prod.ext rfl ?_
    simp
    omega

/-- Length of the serialization of the success-path tree: a perfect tree of
`level + 1` levels has `2 ^ (level + 1) - 1` nodes. -/
theorem serialize_TreeCreateOk_length (level : Nat) :
    ∀ data : Nat → Char,
      (serialize (TreeCreateOk level data)).length = 2 ^ (level + 1) - 1 := by
  induction level with
  | zero => intro data; simp [TreeCreateOk, serialize]
  | succ l ih =>
    intro data
    have h1 := ih (fun i => data (i + 1))
    have h2 := ih (fun i => data (i + 2 ^ l))
    have hp : 1 ≤ 2 ^ (l + 1) := Nat.one_le_two_pow
    simp [TreeCreateOk, serialize, h1, h2]
    rw [pow_succ 2 (l + 1)]
    omega

/-- Single-step preservation: `MorseDecode` keeps `chartree` fixed and its
cursor moves only to an existing child or back to the root, so it stays a
node of the tree. -/
theorem MorseDecode_stays (st : DecState) (i : MorseChar)
    (h : Subnode st.chartree st.temp) :
    (MorseDecode st i).2.chartree = st.chartree ∧
      Subnode st.chartree (MorseDecode st i).2.temp := by
  cases i with
  | dot =>
    cases e : st.temp.leftChild with
    | none => exact ⟨by simp [MorseDecode, e], by simpa [MorseDecode, e] using h⟩
    | some c =>
      exact ⟨by simp [MorseDecode, e], by simpa [MorseDecode, e] using Subnode.left h e⟩
  | dash =>
    cases e : st.temp.rightChild with
    | none => exact ⟨by simp [MorseDecode, e], by simpa [MorseDecode, e] using h⟩
    | some c =>
      exact ⟨by simp [MorseDecode, e], by simpa [MorseDecode, e] using Subnode.right h e⟩
  | endOfChar => exact ⟨rfl, Subnode.refl _⟩
  | decodeReset => exact ⟨rfl, Subnode.refl _⟩
  | other n => exact ⟨rfl, h⟩

/-- Multi-step preservation: any sequence of `MorseDecode` calls keeps the
root fixed and the cursor inside the tree. -/
theorem feedAll_stays (l : List MorseChar) :
    ∀ st : DecState, Subnode st.chartree st.temp →
      (feedAll st l).chartree = st.chartree ∧
        Subnode st.chartree (feedAll st l).temp := by
  induction l with
  | nil => intro st h; exact ⟨rfl, h⟩
  | cons i rest ih =>
    intro st h
    have step := MorseDecode_stays st i h
    have hs : Subnode (MorseDecode st i).2.chartree (MorseDecode st i).2.temp := by
      rw [step.1]; exact step.2
    have h2 := ih (MorseDecode st i).2 hs
    refine ⟨?_, ?_⟩
    · show (feedAll (MorseDecode st i).2 rest).chartree = st.chartree
      rw [h2.1, step.1]
    · show Subnode st.chartree (feedAll (MorseDecode st i).2 rest).temp
      have := h2.2
      rwa [step.1] at this

/-- C1. At `h > 0` the node built by `TreeCreate` holds `data[0]`, its left
subtree is built from `data + 1` and its right subtree from
`data + 2^(h-1)`, the LAST index the left subtree reads (not the first
index past it); a level-`h` build serializes to `2^(h+1) - 1` characters.
This is the amended form of the round-trip claim: because the right
subtree's input overlaps the left's, the serialization does not in general
equal `data` (see the counterexample). -/
theorem C1_build_structure (h : Nat) (d : Nat → Char) :
    (TreeCreate (h + 1) d (fun _ => true) 0).1 =
        some (.mk (d 0) (some (TreeCreateOk h (fun i => d (i + 1))))
          (some (TreeCreateOk h (fun i => d (i + 2 ^ h))))) ∧
      (TreeCreate 0 d (fun _ => true) 0).1 = some (.mk (d 0) none none) ∧
      (serialize (TreeCreateOk h d)).length = 2 ^ (h + 1) - 1 := by
  refine ⟨?_, rfl, serialize_TreeCreateOk_length h d⟩
  rw [TreeCreate_allocTrue]
  simp [TreeCreateOk]

/-- C1, counterexample. For height 1 and serialized data `a b c`, the tree
`TreeCreate` builds (all allocations succeeding) serializes to `a b b`:
both children are built from `data + 1`, so `data[2]` never enters the tree
and the serialization differs from the input. -/
theorem C1_roundtrip_counterexample :
    (TreeCreate 1 c1data (fun _ => true) 0).1 = some (TreeCreateOk 1 c1data) ∧
      serialize (TreeCreateOk 1 c1data) = ['a', 'b', 'b'] ∧
      ['a', 'b', 'b'] ≠ ['a', 'b', 'c'] :=
  ⟨rfl, by decide, by decide⟩

/-- C2. When the allocator satisfies the root's `malloc` (call 0) but fails
the left child's (call 1), `TreeCreate(1, data)` still returns a non-NULL
tree — with a `NULL` left child — because the recursive results are never
checked; subtree allocation failure does not propagate, contradicting the
function's own header comment. -/
theorem C2_subtree_failure_not_propagated :
    (fun k => k != 1) 1 = false ∧
      (TreeCreate 1 c2data (fun k => k != 1) 0).1 =
        some (.mk 'x' none (some (.mk 'y' none none))) ∧
      ((TreeCreate 1 c2data (fun k => k != 1) 0).1).isSome = true :=
  ⟨rfl, rfl, rfl⟩

/-- C3. In `INTER_LETTER`, a tick whose (incremented) counter has reached
the letter-gap constant with a press observed returns `interWord` and goes
to `WAITING`: the `interLetter` (end-of-character) emission is dead code,
since its guard repeats the test that already returned `interWord` above
it, so from `INTER_LETTER` only `interWord` or no event is ever emitted —
never end-of-character. -/
theorem C3_end_of_character_never_emitted :
    MorseCheckEvents .interLetter 99 .b4down = (.waiting, 100, .interWord) ∧
      ∀ (inc : Nat) (b : ButtonEvent),
        (MorseCheckEvents .interLetter inc b).2.2 = .interWord ∨
          (MorseCheckEvents .interLetter inc b).2.2 = .none := by
  refine ⟨by decide, fun inc b => ?_⟩
  simp only [MorseCheckEvents]
  split_ifs <;> simp_all

set_option maxRecDepth 4000 in
/-- C4. After 100 released ticks (1 s, the letter-gap constant) in
`INTER_LETTER` — not 200 ticks (2 s) — the detector emits its single
`interWord` and returns to `WAITING`: the word event fires at the
letter-gap threshold because the comparison uses
`MORSE_EVENT_LENGTH_UP_INTER_LETTER`. -/
theorem C4_interword_at_letter_gap :
    MorseCheckEvents .interLetter 99 .noEvent = (.waiting, 100, .interWord) ∧
      runDetector .interLetter 0 (List.replicate 100 .noEvent) =
        ((.waiting, 100), List.replicate 99 .none ++ [.interWord]) :=
  ⟨by decide, by decide⟩

/-- C5. Feeding an out-of-range symbol with the cursor on the `'E'` node
(one dot below the root) returns `STANDARD_ERROR` but leaves the module
state — cursor included — unchanged: the cursor stays on `'E'` instead of
being reset to the `'\x00'` root, contradicting the function's own header
comment ("the internal state should be reset"). -/
theorem C5_invalid_symbol_does_not_reset :
    MorseDecode c5state (.other 7) = (STANDARD_ERROR, c5state) ∧
      c5state.temp.data = 'E' ∧ c5state.chartree.data = '\x00' :=
  ⟨rfl, by decide, by decide⟩

/-- C6. `MORSE_CHAR_END_OF_CHAR` always resets the cursor to the root and
returns the payload under the cursor: when that payload is the `'\x00'`
sentinel the returned value IS `STANDARD_ERROR` (both are the zero
character), and when it is a real character the call returns it, a value
distinct from `STANDARD_ERROR`. -/
theorem C6_end_of_char_reset_and_payload (st : DecState) :
    (MorseDecode st .endOfChar).2 = ⟨st.chartree, st.chartree⟩ ∧
      (st.temp.data = '\x00' →
        MorseDecode st .endOfChar = (STANDARD_ERROR, ⟨st.chartree, st.chartree⟩)) ∧
      (st.temp.data ≠ '\x00' →
        (MorseDecode st .endOfChar).1 = st.temp.data ∧
          (MorseDecode st .endOfChar).1 ≠ STANDARD_ERROR) := by
  refine ⟨rfl, fun h => ?_, fun h => ⟨rfl, ?_⟩⟩
  · simp [MorseDecode, STANDARD_ERROR, h]
  · exact h

/-- C7. `MORSE_CHAR_DOT` with no left child (and `MORSE_CHAR_DASH` with no
right child) returns `STANDARD_ERROR` with the whole state unchanged — no
implicit reset; with the child present the cursor advances to it and the
call returns `SUCCESS`. -/
theorem C7_dot_dash_frame (st : DecState) :
    (st.temp.leftChild = none → MorseDecode st .dot = (STANDARD_ERROR, st)) ∧
      (∀ c : Node, st.temp.leftChild = some c →
        MorseDecode st .dot = (SUCCESS, ⟨st.chartree, c⟩)) ∧
      (st.temp.rightChild = none → MorseDecode st .dash = (STANDARD_ERROR, st)) ∧
      (∀ c : Node, st.temp.rightChild = some c →
        MorseDecode st .dash = (SUCCESS, ⟨st.chartree, c⟩)) := by
  refine ⟨fun h => ?_, fun c h => ?_, fun h => ?_, fun c h => ?_⟩ <;>
    simp [MorseDecode, h]

/-- C8. After a successful `MorseInit` the cursor starts at the root, and
any sequence of `MorseDecode` calls keeps the root global fixed and the
cursor on a node reachable from that root: no input sequence can drive the
cursor out of the Morse tree. -/
theorem C8_cursor_stays_in_tree (alloc : Nat → Bool) (st : DecState)
    (h : MorseInit alloc = some st) :
    st.temp = st.chartree ∧
      ∀ l : List MorseChar,
        (feedAll st l).chartree = st.chartree ∧
          Subnode st.chartree (feedAll st l).temp := by
  unfold MorseInit at h
  split at h
  · exact absurd h (by simp)
  · rename_i t e
    injection h with h'
    subst h'
    exact ⟨rfl, fun l => feedAll_stays l ⟨t, t⟩ (Subnode.refl t)⟩

/-- C8, witness: with every allocation succeeding, `MorseInit` yields the
concrete Morse tree with the cursor at its root, and after feeding
dot-dash-end-of-character the cursor is still a node of that tree. -/
theorem C8_cursor_stays_in_tree_witness :
    MorseInit (fun _ => true) = some ⟨chartreeVal, chartreeVal⟩ ∧
      Subnode chartreeVal
        (feedAll ⟨chartreeVal, chartreeVal⟩
          [MorseChar.dot, MorseChar.dash, MorseChar.endOfChar]).temp :=
  ⟨rfl,
    (((C8_cursor_stays_in_tree (fun _ => true) ⟨chartreeVal, chartreeVal⟩ rfl).2)
      [MorseChar.dot, MorseChar.dash, MorseChar.endOfChar]).2⟩

/-- C9. On a tick where the `INTER_LETTER` counter reaches the gap
threshold and a press is observed simultaneously, the gap check runs first:
the call returns `interWord` and moves to `WAITING`, and the press is
consumed without effect — the next tick, seeing no fresh press, stays in
`WAITING`, so no `DOT` is started from the dropped edge. -/
theorem C9_interword_precedence (inc : Nat)
    (h : MORSE_EVENT_LENGTH_UP_INTER_LETTER ≤ inc + 1) :
    MorseCheckEvents .interLetter inc .b4down = (.waiting, inc + 1, .interWord) ∧
      MorseCheckEvents .waiting (inc + 1) .noEvent = (.waiting, 0, .none) := by
  constructor
  · simp [MorseCheckEvents, h]
  · simp [MorseCheckEvents]

/-- C9, witness at counter 150. -/
theorem C9_interword_precedence_witness :
    MorseCheckEvents .interLetter 150 .b4down = (.waiting, 151, .interWord) ∧
      MorseCheckEvents .waiting 151 .noEvent = (.waiting, 0, .none) :=
  C9_interword_precedence 150 (by decide)

/-- C10. In `DASH` the detector emits nothing and stays in `DASH` for any
number of ticks without a release — the hold has no maximum duration, the
counter just keeps growing — and the single `dash` event is emitted exactly
on the tick the release is observed, with the counter reset and a
transition to `INTER_LETTER`. -/
theorem C10_dash_hold :
    (∀ (n inc : Nat),
        runDetector .dash inc (List.replicate n .noEvent) =
          ((.dash, inc + n), List.replicate n .none)) ∧
      (∀ inc : Nat, MorseCheckEvents .dash inc .b4down = (.dash, inc + 1, .none)) ∧
      (∀ inc : Nat, MorseCheckEvents .dash inc .b4up = (.interLetter, 0, .dash)) := by
  refine ⟨fun n => ?_, fun inc => by simp [MorseCheckEvents],
    fun inc => by simp [MorseCheckEvents]⟩
  induction n with
  | zero => intro inc; simp [runDetector]
  | succ m ih =>
    intro inc
    have hstep : MorseCheckEvents .dash inc .noEvent = (.dash, inc + 1, .none) := by
      simp [MorseCheckEvents]
    have harith : inc + 1 + m = inc + (m + 1) := by omega
    simp only [List.replicate_succ, runDetector, hstep]
    rw [ih (inc + 1), harith]
